import Mathlib

/-!
Verification development for the real-time stock dashboard
(`src/stocks_dashboard.py`).

The pipeline under study is:
  fetch_stock_data → process_data → normalize_column_names →
  calculate_metrics → add_technical_indicators
plus the module-level orchestration (main chart handler and watchlist loop).

Shallow embedding conventions:
* Python strings are `List Char` (`Str`); Python's substring test
  `needle in hay` is `inStr`.
* A pandas DataFrame is `DF`: a row index (`PdIndex`, either a
  DatetimeIndex carrying one timezone for the whole index, or the
  integer RangeIndex produced by `reset_index`) plus a list of columns,
  each a label (`PdLabel`, flat string or two-level tuple) with a list
  of cells.
* Numeric cells are rationals (`Rat`); pandas `NaN` is the cell `Cell.nan`;
  timestamps are epoch values with an optional timezone tag.
* Python exceptions are `Except PyErr`; an uncaught exception at module
  level aborts the rest of the run.
-/

abbrev Str := List Char

/-- Python's substring containment `needle in hay` on strings. -/
def inStr (needle : Str) : Str → Bool
  | [] => needle.isEmpty
  | c :: t => needle.isPrefixOf (c :: t) || inStr needle t

/-- Python's `str.strip()`: drop whitespace from both ends. -/
def pyStrip (s : Str) : Str :=
  ((s.dropWhile Char.isWhitespace).reverse.dropWhile Char.isWhitespace).reverse

def sOpen : Str := "Open".data

def sHigh : Str := "High".data

def sLow : Str := "Low".data

def sClose : Str := "Close".data

def sVolume : Str := "Volume".data

def sDate : Str := "Date".data

def sDatetime : Str := "Datetime".data

def sSMA20 : Str := "SMA_20".data

def sEMA20 : Str := "EMA_20".data

/-- The five canonical OHLCV names, in the priority order used by
`normalize_column_names` (lines 37-41 of the source). -/
def ohlcvNames : List Str := [sOpen, sHigh, sLow, sClose, sVolume]

/-- Timezones that occur in the source: `'UTC'` and `'US/Eastern'`. -/
inductive Tz where
  | utc
  | eastern
deriving DecidableEq

/-- A pandas timestamp: an epoch value plus an optional timezone tag
(`none` = timezone-naive; the epoch of a naive stamp is its wall-clock
reading interpreted as UTC, which is exactly what `tz_localize('UTC')`
turns it into). -/
structure Stamp where
  epoch : Int
  tz : Option Tz
deriving DecidableEq

/-- A DataFrame cell: a numeric value, a timestamp, or pandas `NaN`. -/
inductive Cell where
  | num (q : Rat)
  | time (ts : Stamp)
  | nan
deriving DecidableEq

/-- A column label: a flat string, or a two-level `(field, symbol)` pair
as produced by `yf.download` for the MultiIndex case. -/
inductive PdLabel where
  | flat (s : Str)
  | pair (a b : Str)
deriving DecidableEq

/-- The row index: a DatetimeIndex (name, epoch values, a single optional
timezone for the whole index) or the integer RangeIndex left behind by
`reset_index`. -/
inductive PdIndex where
  | dtIdx (name : Str) (times : List Int) (tz : Option Tz)
  | rangeIdx (n : Nat)
deriving DecidableEq

/-- A pandas DataFrame: row index plus labelled columns. -/
structure DF where
  idx : PdIndex
  cols : List (PdLabel × List Cell)
deriving DecidableEq

/-- Python exceptions that the dashboard code can raise. -/
inductive PyErr where
  | attributeError
  | keyError
  | typeError
  | indexError
  | valueError
deriving DecidableEq

/-- Number of rows, `len(df)` = length of the row index. -/
def nRows (df : DF) : Nat :=
  match df.idx with
  | .dtIdx _ times _ => times.length
  | .rangeIdx n => n

/-- Pandas `DataFrame.empty`: an axis of length zero. -/
def pyEmptyDF (df : DF) : Bool :=
  nRows df == 0 || df.cols.isEmpty

/-- `isinstance(data.columns, pd.MultiIndex)`: the columns are two-level. -/
def dfIsMulti (df : DF) : Bool :=
  df.cols.any fun c =>
    match c.1 with
    | .pair _ _ => true
    | .flat _ => false

/-- Flattening of one label, from line 22 of the source:
`' '.join(col).strip()` for a two-level label. -/
def flattenLabel : PdLabel → PdLabel
  | .flat s => .flat s
  | .pair a b => .flat (pyStrip (a ++ (' ' :: b)))

/-- Line 22: `data.columns = [' '.join(col).strip() for col in data.columns.values]`. -/
def flattenDF (df : DF) : DF :=
  ⟨df.idx, df.cols.map fun c => (flattenLabel c.1, c.2)⟩

/-- Renaming used by `data.rename(columns={old: new})` on flat labels:
every column whose label equals `old` is renamed.  (In the source this
runs only after columns have been flattened.) -/
def renameCols (old new : Str) (cols : List (PdLabel × List Cell)) :
    List (PdLabel × List Cell) :=
  cols.map fun c => (if c.1 = PdLabel.flat old then PdLabel.flat new else c.1, c.2)

/-- Membership test `name in data.columns` for a flat string key. -/
def hasCol (cols : List (PdLabel × List Cell)) (s : Str) : Bool :=
  cols.any fun c => c.1 = PdLabel.flat s

/-- The rename chain of `process_data` (source lines 27-30), applied to
the columns after `reset_index`: if a column is literally named `Date`,
rename it `Datetime`; otherwise if no column is named `Datetime`, rename
the first column (all columns sharing its label) to `Datetime`. -/
def promoteRename (cols1 : List (PdLabel × List Cell)) : List (PdLabel × List Cell) :=
  if hasCol cols1 sDate then renameCols sDate sDatetime cols1
  else if hasCol cols1 sDatetime then cols1
  else
    match cols1 with
    | [] => []
    | c0 :: _ =>
        match c0.1 with
        | .flat f => renameCols f sDatetime cols1
        | .pair _ _ => cols1

/-- Embedding of `process_data` (source lines 20-31).

1. if the columns are a MultiIndex, flatten each to `' '.join(col).strip()`;
2. if the index is timezone-naive, `tz_localize('UTC')` (epochs unchanged:
   the naive wall reading becomes the UTC instant), then unconditionally
   `tz_convert('US/Eastern')` (instants unchanged, tag becomes Eastern);
   on a RangeIndex the attribute access `data.index.tzinfo` raises
   `AttributeError` (RangeIndex has no `tzinfo`);
3. `reset_index`: the index becomes the first column (named after the
   index) and the index becomes a RangeIndex;
4. the `Date`/`Datetime` rename chain `promoteRename`. -/
def process_data (df : DF) : Except PyErr DF :=
  let df1 := if dfIsMulti df then flattenDF df else df
  match df1.idx with
  | .rangeIdx _ => .error .attributeError
  | .dtIdx name times _tz =>
      let dtCells : List Cell := times.map fun t => Cell.time ⟨t, some Tz.eastern⟩
      let cols1 : List (PdLabel × List Cell) := (PdLabel.flat name, dtCells) :: df1.cols
      .ok ⟨.rangeIdx times.length, promoteRename cols1⟩

/-- Canonical renaming of one flat label (source lines 36-41): the first
of `Open`, `High`, `Low`, `Close`, `Volume` occurring as a substring wins;
labels matching none are left untouched. -/
def canonName (l : Str) : Str :=
  if inStr sOpen l then sOpen
  else if inStr sHigh l then sHigh
  else if inStr sLow l then sLow
  else if inStr sClose l then sClose
  else if inStr sVolume l then sVolume
  else l

/-- Canonical renaming of a label.  For a two-level label the built
`col_map` is keyed by tuples, but pandas `rename` applies the mapping
level-wise on a MultiIndex, so no level (a plain string) ever matches a
tuple key and the label is unchanged. -/
def canonLabel : PdLabel → PdLabel
  | .flat s => .flat (canonName s)
  | .pair a b => .pair a b

/-- Embedding of `normalize_column_names` (source lines 34-43). -/
def normalize_column_names (df : DF) : DF :=
  ⟨df.idx, df.cols.map fun c => (canonLabel c.1, c.2)⟩

/-- The full Normalizer of the spec: `process_data` then
`normalize_column_names`. -/
def normalizer (df : DF) : Except PyErr DF :=
  (process_data df).map normalize_column_names

/-- Column selection `data[s]`: the columns whose flat label equals `s`. -/
def selectCols (df : DF) (s : Str) : List (PdLabel × List Cell) :=
  df.cols.filter fun c => c.1 = PdLabel.flat s

/-- The cells of the unique column labelled `s`, when it exists. -/
def getCells (df : DF) (s : Str) : Option (List Cell) :=
  match selectCols df s with
  | [c] => some c.2
  | _ => none

/-- Conversion of one cell by Python's `float(...)`.  A numeric cell
converts; a timestamp raises `TypeError`.  (`float(NaN)` would succeed
in Python, but `NaN` admits no rational value, so the rational model
treats a `NaN` cell reaching `float` as an error; no claim exercises it.) -/
def cellFloat : Cell → Except PyErr Rat
  | .num q => .ok q
  | .time _ => .error .typeError
  | .nan => .error .typeError

/-- All cells of a column as rationals. -/
def cellsFloat : List Cell → Except PyErr (List Rat)
  | [] => .ok []
  | c :: t => do
      let q ← cellFloat c
      let qs ← cellsFloat t
      .ok (q :: qs)

/-- Numeric column access `data[s]` followed by per-cell `float`:
no such column raises `KeyError`; duplicate labels make `data[s]` a
DataFrame, whose scalar conversion raises `TypeError`. -/
def getNumCol (df : DF) (s : Str) : Except PyErr (List Rat) :=
  match selectCols df s with
  | [] => .error .keyError
  | [c] => cellsFloat c.2
  | _ => .error .typeError

/-- Series element access `.iloc[-1]`; raises `IndexError` when empty. -/
def ilocLast (xs : List Rat) : Except PyErr Rat :=
  match xs.getLast? with
  | some q => .ok q
  | none => .error .indexError

/-- Series element access `.iloc[0]`; raises `IndexError` when empty. -/
def ilocFirst (xs : List Rat) : Except PyErr Rat :=
  match xs.head? with
  | some q => .ok q
  | none => .error .indexError

/-- Series `.max()`; the model requires a nonempty column (pandas would
return `NaN` on an empty one, which has no rational value). -/
def seriesMax (xs : List Rat) : Except PyErr Rat :=
  match xs.max? with
  | some q => .ok q
  | none => .error .valueError

/-- Series `.min()`; the model requires a nonempty column. -/
def seriesMin (xs : List Rat) : Except PyErr Rat :=
  match xs.min? with
  | some q => .ok q
  | none => .error .valueError

/-- Python's `int(x)` on a real value: truncation toward zero. -/
def intTrunc (q : Rat) : Int :=
  if 0 ≤ q then ⌊q⌋ else ⌈q⌉

/-- The metrics tuple returned by `calculate_metrics`. -/
structure Metrics where
  lastClose : Rat
  change : Rat
  pctChange : Rat
  high : Rat
  low : Rat
  volume : Int
deriving DecidableEq

/-- Embedding of `calculate_metrics` (source lines 46-54). -/
def calculate_metrics (df : DF) : Except PyErr Metrics := do
  let closes ← getNumCol df sClose
  let lastClose ← ilocLast closes
  let prevClose ← ilocFirst closes
  let change := lastClose - prevClose
  let pctChange := change / prevClose * 100
  let highs ← getNumCol df sHigh
  let high ← seriesMax highs
  let lows ← getNumCol df sLow
  let low ← seriesMin lows
  let vols ← getNumCol df sVolume
  .ok ⟨lastClose, change, pctChange, high, low, intTrunc vols.sum⟩

/-- Rolling mean of window `w` with `min_periods = w`
(`Series.rolling(w).mean()` as used by `ta.trend.sma_indicator` with
`fillna=False`): `NaN` until a full window is available, then the mean
of the last `w` values. -/
def rollingMean (w : Nat) (xs : List Rat) : List Cell :=
  (List.range xs.length).map fun i =>
    if w ≤ i + 1 then Cell.num ((((xs.take (i + 1)).drop (i + 1 - w)).sum) / (w : Rat))
    else Cell.nan

/-- Recursive exponential mean with `adjust=False` and smoothing
`2 / (w + 1)`, seeded at the first value. -/
def emaFrom (alpha prev : Rat) : List Rat → List Rat
  | [] => []
  | x :: t =>
      let e := alpha * x + (1 - alpha) * prev
      e :: emaFrom alpha e t

/-- Exponential moving average with `min_periods = w`
(`Series.ewm(span=w, adjust=False).mean()` as used by
`ta.trend.ema_indicator` with `fillna=False`): computed recursively from
the first value, masked to `NaN` before a full window. -/
def ewmMean (w : Nat) (xs : List Rat) : List Cell :=
  let alpha : Rat := 2 / ((w : Rat) + 1)
  let es :=
    match xs with
    | [] => []
    | x :: t => x :: emaFrom alpha x t
  (List.zip (List.range xs.length) es).map fun p =>
    if w ≤ p.1 + 1 then Cell.num p.2 else Cell.nan

/-- Column assignment `data[s] = cells`: overwrite the columns labelled
`s` if any exist, otherwise append a new column at the end. -/
def setCol (df : DF) (s : Str) (cells : List Cell) : DF :=
  if hasCol df.cols s then
    ⟨df.idx, df.cols.map fun c => if c.1 = PdLabel.flat s then (c.1, cells) else c⟩
  else
    ⟨df.idx, df.cols ++ [(PdLabel.flat s, cells)]⟩

/-- Embedding of `add_technical_indicators` (source lines 57-63).
`data['Close']` with a unique label is already one-dimensional and the
defensive `squeeze` branch is a no-op; with duplicate labels the squeeze
leaves a DataFrame and the indicator call raises; with no `Close` column
the selection raises `KeyError`. -/
def add_technical_indicators (df : DF) : Except PyErr DF :=
  match selectCols df sClose with
  | [] => .error .keyError
  | [c] => do
      let closes ← cellsFloat c.2
      let df1 := setCol df sSMA20 (rollingMean 20 closes)
      .ok (setCol df1 sEMA20 (ewmMean 20 closes))
  | _ => .error .typeError

/-- A request issued to `yf.download`: either by period token or by an
explicit start/end window.  Times are epoch seconds. -/
inductive YfRequest where
  | byPeriod (ticker period interval : Str)
  | byRange (ticker : Str) (startTime endTime : Int) (interval : Str)
deriving DecidableEq

def s1d : Str := "1d".data

def s1wk : Str := "1wk".data

def s1mo : Str := "1mo".data

def s1y : Str := "1y".data

def sMax : Str := "max".data

def s1m : Str := "1m".data

def s5m : Str := "5m".data

def s30m : Str := "30m".data

/-- Embedding of `fetch_stock_data` (source lines 10-17), as the request
it issues: period `'1wk'` is special-cased to an explicit trailing
window `[now - 7 days, now]`; every other period token is passed
through.  `now` is epoch seconds. -/
def fetch_stock_data (ticker period interval : Str) (now : Int) : YfRequest :=
  if period = s1wk then .byRange ticker (now - 7 * 86400) now interval
  else .byPeriod ticker period interval

/-- The `interval_mapping` dict (source lines 76-82). -/
def interval_mapping : List (Str × Str) :=
  [(s1d, s5m), (s1wk, s30m), (s1mo, s1d), (s1y, s1wk), (sMax, s1wk)]

/-- Dict lookup `interval_mapping[p]`. -/
def lookupInterval (p : Str) : Option Str :=
  (interval_mapping.find? fun kv => kv.1 = p).map fun kv => kv.2

/-- The request issued by the main chart handler (source line 87):
`fetch_stock_data(ticker, time_period, interval_mapping[time_period])`. -/
def mainChartRequest (ticker period : Str) (now : Int) : Option YfRequest :=
  (lookupInterval period).map fun interval => fetch_stock_data ticker period interval now

/-- The request issued per symbol by the watchlist loop (source line 137):
`fetch_stock_data(symbol, '1d', '1m')`. -/
def watchlistRequest (symbol : Str) (now : Int) : YfRequest :=
  fetch_stock_data symbol s1d s1m now

/-- Pipeline stages of the main chart handler, recorded in execution
order so that "stage was invoked" is expressible. -/
inductive Stage where
  | processData
  | normalize
  | metrics
  | indicators
  | render
deriving DecidableEq

/-- Kinds of chart requested in the sidebar. -/
inductive ChartType where
  | candlestick
  | line
deriving DecidableEq

/-- Warnings the main chart handler can show (`st.warning`). -/
inductive MWarn where
  | insufficientData
  | notEnoughCandles
deriving DecidableEq

/-- Outcome of one run of the main chart handler: warnings shown, the
error shown by the enclosing `except` (if any), the chart actually
rendered (if any), and the stages that executed. -/
structure MainOut where
  warns : List MWarn
  err : Option PyErr
  chart : Option ChartType
  stages : List Stage
deriving DecidableEq

/-- Stage list of a run that reaches rendering. -/
def allStages : List Stage :=
  [.processData, .normalize, .metrics, .indicators, .render]

/-- Embedding of the main chart handler (source lines 85-131): the body
of the `Update` branch, with the fetched table passed in.  The `try`
block turns an uncaught pipeline exception into `st.error`. -/
def runMainChart (raw : DF) (chartType : ChartType) : MainOut :=
  if pyEmptyDF raw || nRows raw < 2 then
    ⟨[.insufficientData], none, none, []⟩
  else
    match process_data raw with
    | .error e => ⟨[], some e, none, [.processData]⟩
    | .ok d1 =>
        let d2 := normalize_column_names d1
        match calculate_metrics d2 with
        | .error e => ⟨[], some e, none, [.processData, .normalize, .metrics]⟩
        | .ok _m =>
            match add_technical_indicators d2 with
            | .error e => ⟨[], some e, none, [.processData, .normalize, .metrics, .indicators]⟩
            | .ok d3 =>
                if chartType = ChartType.candlestick ∧ 5 ≤ nRows d3 then
                  ⟨[], none, some .candlestick, allStages⟩
                else if chartType = ChartType.candlestick then
                  ⟨[.notEnoughCandles], none, some .line, allStages⟩
                else
                  ⟨[], none, some .line, allStages⟩

/-- What the watchlist loop shows for one symbol: a metric triple
(last price, change, percent change) or an inline warning. -/
inductive WItem where
  | metricItem (lastPrice change pctChange : Rat)
  | warnItem (e : PyErr)
deriving DecidableEq

/-- The `try` block of the watchlist loop (source lines 144-151):
`float(Close.iloc[-1])`, `float(Open.iloc[0])`, change and percent
change. -/
def watchlistMetrics (df : DF) : Except PyErr (Rat × Rat × Rat) := do
  let closes ← getNumCol df sClose
  let lastPrice ← ilocLast closes
  let opens ← getNumCol df sOpen
  let openPrice ← ilocFirst opens
  let change := lastPrice - openPrice
  .ok (lastPrice, change, change / openPrice * 100)

/-- One iteration of the watchlist loop body (source lines 137-151),
with the fetched table passed in.  `none` output: the symbol was
silently skipped (empty fetch).  An `Except.error` is an exception that
escapes the loop body (only the metric block sits inside a `try`). -/
def watchlistBody (df : DF) : Except PyErr (Option WItem) :=
  if pyEmptyDF df then .ok none
  else
    let df1 := if dfIsMulti df then flattenDF df else df
    match process_data df1 with
    | .error e => .error e
    | .ok d2 =>
        let d3 := normalize_column_names d2
        match watchlistMetrics d3 with
        | .ok t => .ok (some (.metricItem t.1 t.2.1 t.2.2))
        | .error e => .ok (some (.warnItem e))

/-- The watchlist loop (source lines 136-151) over a list of symbols.
`fetch` models `fetch_stock_data`'s result for each symbol — a table, or
a raised exception.  The result is the per-symbol output shown in order,
plus the exception that aborted the loop, if any: an exception raised
outside the inner `try` (in fetch or in `process_data`) is uncaught at
module level and stops the remaining symbols. -/
def runWatchlist (fetch : Str → Except PyErr DF) : List Str → List (Str × WItem) × Option PyErr
  | [] => ([], none)
  | s :: rest =>
      match fetch s with
      | .error e => ([], some e)
      | .ok df =>
          match watchlistBody df with
          | .error e => ([], some e)
          | .ok none => runWatchlist fetch rest
          | .ok (some w) =>
              let r := runWatchlist fetch rest
              ((s, w) :: r.1, r.2)

/-- Numeric cells from a list of rationals. -/
def mkNum (xs : List Rat) : List Cell := xs.map Cell.num

/-- The raw table of the spec's concrete scenario: 10 rows, naive
timestamps 0..9, two-level columns over the single symbol `XYZ`, closes
100..109. -/
def rawC5 : DF :=
  ⟨.dtIdx ("Datetime".data) [0, 1, 2, 3, 4, 5, 6, 7, 8, 9] none,
   [(.pair sClose ("XYZ".data), mkNum [100, 101, 102, 103, 104, 105, 106, 107, 108, 109]),
    (.pair sOpen ("XYZ".data), mkNum [10, 11, 12, 13, 14, 15, 16, 17, 18, 19]),
    (.pair sHigh ("XYZ".data), mkNum [110, 111, 112, 113, 114, 115, 116, 117, 118, 119]),
    (.pair sLow ("XYZ".data), mkNum [90, 91, 92, 93, 94, 95, 96, 97, 98, 99]),
    (.pair sVolume ("XYZ".data), mkNum [1000, 1000, 1000, 1000, 1000, 1000, 1000, 1000, 1000, 1000])]⟩

/-- The canonical table obtained by normalizing `rawC5`. -/
def canonC5 : DF :=
  match normalizer rawC5 with
  | .ok d => d
  | .error _ => ⟨.rangeIdx 0, []⟩

/-- A raw two-level table for the single symbol `Low`. -/
def rawLow : DF :=
  ⟨.dtIdx ("Datetime".data) [0, 1] none,
   [(.pair sOpen ("Low".data), mkNum [1, 2]),
    (.pair sHigh ("Low".data), mkNum [1, 2]),
    (.pair sLow ("Low".data), mkNum [1, 2]),
    (.pair sClose ("Low".data), mkNum [1, 2]),
    (.pair sVolume ("Low".data), mkNum [1, 2])]⟩

/-- One-row table used to exercise the insufficient-data branch. -/
def raw1 : DF := ⟨.dtIdx ("Datetime".data) [0] none, [(.flat sClose, mkNum [5])]⟩

/-- Empty fetch result. -/
def dfEmptyW : DF := ⟨.dtIdx ("Datetime".data) [] none, []⟩

/-- A nonempty table with a `Close` column but no `Open` column: its
watchlist metric computation raises `KeyError`. -/
def dfNoOpen : DF :=
  ⟨.dtIdx ("Datetime".data) [0, 1] none,
   [(.flat sClose, mkNum [5, 6]), (.flat sHigh, mkNum [7, 8])]⟩

/-- Fetch function returning an empty table for `AAPL` and `dfNoOpen`
otherwise. -/
def wfetchC10 : Str → Except PyErr DF :=
  fun s => if s = "AAPL".data then .ok dfEmptyW else .ok dfNoOpen

/-- A table that the watchlist loop processes to a successful metric. -/
def dfGoodW : DF :=
  ⟨.dtIdx ("Datetime".data) [0, 1] none,
   [(.flat sClose, mkNum [5, 6]), (.flat sOpen, mkNum [5, 5])]⟩

/-- Fetch function raising for `AAPL` and succeeding for other symbols. -/
def wfetchBad : Str → Except PyErr DF :=
  fun s => if s = "AAPL".data then .error .valueError else .ok dfGoodW

/-- Fetch function returning `dfNoOpen` for every symbol. -/
def wfetchNoOpen : Str → Except PyErr DF := fun _ => .ok dfNoOpen

/-- The table `dfNoOpen` after `process_data`. -/
def d2NoOpen : DF :=
  match process_data dfNoOpen with
  | .ok d => d
  | .error _ => ⟨.rangeIdx 0, []⟩

/-- Three-row raw table with flat canonical columns. -/
def raw3 : DF :=
  ⟨.dtIdx ("Datetime".data) [0, 1, 2] none,
   [(.flat sOpen, mkNum [1, 2, 3]), (.flat sHigh, mkNum [4, 5, 6]),
    (.flat sLow, mkNum [0, 1, 2]), (.flat sClose, mkNum [2, 3, 4]),
    (.flat sVolume, mkNum [10, 10, 10])]⟩

/-- Extract the table of a successful pipeline step. -/
def pdOk (r : Except PyErr DF) : DF :=
  match r with
  | .ok d => d
  | .error _ => ⟨.rangeIdx 0, []⟩

/-- `raw3` after `process_data`. -/
def c8d1 : DF := pdOk (process_data raw3)

/-- The metrics of the normalized `raw3`. -/
def c8m : Metrics :=
  match calculate_metrics (normalize_column_names c8d1) with
  | .ok m => m
  | .error _ => ⟨0, 0, 0, 0, 0, 0⟩

/-- The normalized `raw3` with indicators added. -/
def c8d3 : DF := pdOk (add_technical_indicators (normalize_column_names c8d1))

/-- A canonical table assembled from its six columns. -/
def mkCanon (dts : List Cell) (opens highs lows closes vols : List Rat) : DF :=
  ⟨.rangeIdx closes.length,
   [(.flat sDatetime, dts), (.flat sOpen, opens.map Cell.num),
    (.flat sHigh, highs.map Cell.num), (.flat sLow, lows.map Cell.num),
    (.flat sClose, closes.map Cell.num), (.flat sVolume, vols.map Cell.num)]⟩

/-- Twenty-five closes used to exercise the indicator engine. -/
def closesC7 : List Rat :=
  [1, 2, 3, 4, 5, 6, 7, 8, 9, 10, 11, 12, 13, 14, 15, 16, 17, 18, 19, 20,
   21, 22, 23, 24, 25]

/-- A canonical table with 25 rows for the indicator witness. -/
def dfC7 : DF := ⟨.rangeIdx 25, [(.flat sClose, closesC7.map Cell.num)]⟩

/-! ### Theorems -/

/-- C5: on the concrete raw table `rawC5` (10 rows, timezone-naive
index, two-level `(field, 'XYZ')` columns, closes 100..109) the
Normalizer produces a `Datetime` column whose stamps are
timezone-aware in US Eastern with the naive readings preserved as UTC
instants, and `calculate_metrics` yields `change = 9` and
`pct_change = 9`. -/
theorem c5_concrete_scenario :
    ((normalizer rawC5).toOption.bind fun d => getCells d sDatetime) =
      some (([0, 1, 2, 3, 4, 5, 6, 7, 8, 9] : List Int).map fun t =>
        Cell.time ⟨t, some Tz.eastern⟩)
    ∧ ((normalizer rawC5).toOption.bind fun d =>
        (calculate_metrics d).toOption.map fun m => (m.change, m.pctChange)) =
      some ((9 : Rat), (9 : Rat)) := by
  constructor
  · decide
  · have e : ((normalizer rawC5).toOption.bind fun d =>
        (calculate_metrics d).toOption.map fun m => (m.change, m.pctChange)) =
        some (((109 : Rat) - 100, ((109 : Rat) - 100) / 100 * 100)) := rfl
    rw [e]
    norm_num

/-- C9 counterexample: the watchlist loop's fetch request uses period
`'1d'` with interval `'1m'`, while `interval_mapping` maps `'1d'` to
`'5m'` — so not every fetch request derives its interval from the fixed
mapping. -/
theorem watchlist_interval_not_mapped :
    watchlistRequest ("AAPL".data) 0 = YfRequest.byPeriod ("AAPL".data) s1d s1m
    ∧ lookupInterval s1d = some s5m
    ∧ s1m ≠ s5m := by
  decide

/-- C9 amended: main-chart fetch requests derive the interval from the
period via the fixed mapping `1d→5m, 1wk→30m, 1mo→1d, 1y→1wk, max→1wk`;
in every fetch, period `'1wk'` is special-cased to an explicit 7-day
trailing window (start = now − 7 days, end = now) while every other
period token is passed through directly; the watchlist loop instead
requests the fixed pair (period `'1d'`, interval `'1m'`). -/
theorem fetch_interval_mapping_spec (ticker iv : Str) (now : Int) :
    mainChartRequest ticker s1d now = some (YfRequest.byPeriod ticker s1d s5m)
    ∧ mainChartRequest ticker s1wk now =
        some (YfRequest.byRange ticker (now - 7 * 86400) now s30m)
    ∧ mainChartRequest ticker s1mo now = some (YfRequest.byPeriod ticker s1mo s1d)
    ∧ mainChartRequest ticker s1y now = some (YfRequest.byPeriod ticker s1y s1wk)
    ∧ mainChartRequest ticker sMax now = some (YfRequest.byPeriod ticker sMax s1wk)
    ∧ (∀ p, p ≠ s1wk → fetch_stock_data ticker p iv now = YfRequest.byPeriod ticker p iv)
    ∧ fetch_stock_data ticker s1wk iv now =
        YfRequest.byRange ticker (now - 7 * 86400) now iv
    ∧ watchlistRequest ticker now = YfRequest.byPeriod ticker s1d s1m := by
  have l1 : lookupInterval s1d = some s5m := by decide
  have l2 : lookupInterval s1wk = some s30m := by decide
  have l3 : lookupInterval s1mo = some s1d := by decide
  have l4 : lookupInterval s1y = some s1wk := by decide
  have l5 : lookupInterval sMax = some s1wk := by decide
  refine ⟨?_, ?_, ?_, ?_, ?_, ?_, ?_, ?_⟩
  · simp [mainChartRequest, l1, fetch_stock_data, show ¬s1d = s1wk from by decide]
  · simp [mainChartRequest, l2, fetch_stock_data]
  · simp [mainChartRequest, l3, fetch_stock_data, show ¬s1mo = s1wk from by decide]
  · simp [mainChartRequest, l4, fetch_stock_data, show ¬s1y = s1wk from by decide]
  · simp [mainChartRequest, l5, fetch_stock_data, show ¬sMax = s1wk from by decide]
  · intro p hp
    simp [fetch_stock_data, hp]
  · simp [fetch_stock_data]
  · simp [watchlistRequest, fetch_stock_data, show ¬s1d = s1wk from by decide]

/-- Witness for `fetch_interval_mapping_spec` at concrete inputs. -/
theorem fetch_interval_mapping_spec_witness :
    mainChartRequest ("ADBE".data) s1d 1000 =
      some (YfRequest.byPeriod ("ADBE".data) s1d s5m)
    ∧ fetch_stock_data ("ADBE".data) s1mo s1d 1000 =
      YfRequest.byPeriod ("ADBE".data) s1mo s1d :=
  ⟨(fetch_interval_mapping_spec ("ADBE".data) s1d 1000).1,
   (fetch_interval_mapping_spec ("ADBE".data) s1d 1000).2.2.2.2.2.1 s1mo (by decide)⟩

/-- Canonical renaming is idempotent on one flat label. -/
theorem canonName_idem (l : Str) : canonName (canonName l) = canonName l := by
  by_cases h1 : inStr sOpen l = true
  · have e : canonName l = sOpen := by unfold canonName; rw [if_pos h1]
    rw [e]; decide
  · by_cases h2 : inStr sHigh l = true
    · have e : canonName l = sHigh := by unfold canonName; rw [if_neg h1, if_pos h2]
      rw [e]; decide
    · by_cases h3 : inStr sLow l = true
      · have e : canonName l = sLow := by
          unfold canonName; rw [if_neg h1, if_neg h2, if_pos h3]
        rw [e]; decide
      · by_cases h4 : inStr sClose l = true
        · have e : canonName l = sClose := by
            unfold canonName; rw [if_neg h1, if_neg h2, if_neg h3, if_pos h4]
          rw [e]; decide
        · by_cases h5 : inStr sVolume l = true
          · have e : canonName l = sVolume := by
              unfold canonName; rw [if_neg h1, if_neg h2, if_neg h3, if_neg h4, if_pos h5]
            rw [e]; decide
          · have e : canonName l = l := by
              unfold canonName; rw [if_neg h1, if_neg h2, if_neg h3, if_neg h4, if_neg h5]
            rw [e]; exact e

/-- Canonical renaming is idempotent on any label. -/
theorem canonLabel_idem (l : PdLabel) : canonLabel (canonLabel l) = canonLabel l := by
  cases l with
  | flat s => simp [canonLabel, canonName_idem]
  | pair a b => rfl

/-- C4 counterexample: on the already-canonical table `canonC5`, the
full Normalizer does not return the table again — `process_data` fails
with `AttributeError`, because the canonical table's row index is the
integer RangeIndex left by `reset_index`, which has no `tzinfo`. -/
theorem normalizer_fails_on_canonical :
    normalizer canonC5 = Except.error PyErr.attributeError
    ∧ normalizer canonC5 ≠ Except.ok canonC5 := by
  have h0 : normalizer canonC5 = Except.error PyErr.attributeError := rfl
  refine ⟨h0, ?_⟩
  rw [h0]
  intro h
  exact Except.noConfusion h

/-- C4 amended: the renaming stage `normalize_column_names` is
idempotent on every table (no rename changes an already-canonical
label), but the full Normalizer is not idempotent: on any table whose
row index is already the integer RangeIndex produced by a previous run
(as in every canonical table), `process_data` raises `AttributeError`. -/
theorem normalize_idempotent_process_data_not :
    (∀ df : DF, normalize_column_names (normalize_column_names df) = normalize_column_names df)
    ∧ (∀ (df : DF) (n : Nat), df.idx = PdIndex.rangeIdx n →
        process_data df = Except.error PyErr.attributeError) := by
  constructor
  · intro df
    unfold normalize_column_names
    simp only [List.map_map]
    congr 1
    apply List.map_congr_left
    intro c _
    simp [Function.comp, canonLabel_idem]
  · intro df n h
    by_cases hm : dfIsMulti df = true
    · simp [process_data, hm, flattenDF, h]
    · simp [process_data, hm, h]

/-- Witness for `normalize_idempotent_process_data_not` at the concrete
canonical table `canonC5`. -/
theorem normalize_idempotent_process_data_not_witness :
    process_data canonC5 = Except.error PyErr.attributeError
    ∧ normalize_column_names (normalize_column_names canonC5) = normalize_column_names canonC5 :=
  ⟨normalize_idempotent_process_data_not.2 canonC5 10 (by rfl),
   normalize_idempotent_process_data_not.1 canonC5⟩

/-- C3: whenever the fetched table is empty or has fewer than two rows,
the main chart handler shows only the insufficient-data warning (no
error: it is non-fatal), renders nothing, and runs no pipeline stage —
in particular `process_data`, the metrics and the indicators are never
invoked. -/
theorem main_chart_insufficient_data (raw : DF) (ct : ChartType)
    (h : pyEmptyDF raw = true ∨ nRows raw < 2) :
    runMainChart raw ct = ⟨[MWarn.insufficientData], none, none, []⟩
    ∧ Stage.processData ∉ (runMainChart raw ct).stages
    ∧ Stage.metrics ∉ (runMainChart raw ct).stages
    ∧ Stage.indicators ∉ (runMainChart raw ct).stages := by
  have hc : (pyEmptyDF raw || decide (nRows raw < 2)) = true := by
    rcases h with h | h
    · simp [h]
    · simp [h]
  have e : runMainChart raw ct = ⟨[MWarn.insufficientData], none, none, []⟩ := by
    unfold runMainChart
    rw [if_pos hc]
  refine ⟨e, ?_, ?_, ?_⟩ <;> simp [e]

/-- Witness for `main_chart_insufficient_data` on a one-row table. -/
theorem main_chart_insufficient_data_witness :
    runMainChart raw1 ChartType.candlestick = ⟨[MWarn.insufficientData], none, none, []⟩
    ∧ Stage.processData ∉ (runMainChart raw1 ChartType.candlestick).stages
    ∧ Stage.metrics ∉ (runMainChart raw1 ChartType.candlestick).stages
    ∧ Stage.indicators ∉ (runMainChart raw1 ChartType.candlestick).stages :=
  main_chart_insufficient_data raw1 ChartType.candlestick (Or.inr (by decide))

/-- C10: in the watchlist loop, a symbol whose fetch returns an empty
table is silently skipped — its loop body produces no metric display
and no warning — and the loop's outcome is exactly that of the
remaining symbols. -/
theorem watchlist_empty_fetch_skipped (fetch : Str → Except PyErr DF) (s : Str)
    (rest : List Str) (df : DF) (hf : fetch s = .ok df) (he : pyEmptyDF df = true) :
    watchlistBody df = .ok none
    ∧ runWatchlist fetch (s :: rest) = runWatchlist fetch rest := by
  have hb : watchlistBody df = .ok none := by
    unfold watchlistBody
    rw [if_pos he]
  exact ⟨hb, by simp only [runWatchlist, hf, hb]⟩

/-- Witness for `watchlist_empty_fetch_skipped` at concrete inputs. -/
theorem watchlist_empty_fetch_skipped_witness :
    watchlistBody dfEmptyW = .ok none
    ∧ runWatchlist wfetchC10 [("AAPL".data), ("GOOGL".data)] =
        runWatchlist wfetchC10 [("GOOGL".data)] :=
  watchlist_empty_fetch_skipped wfetchC10 ("AAPL".data) [("GOOGL".data)] dfEmptyW
    (by rfl) (by decide)

/-- C6 counterexample: an error raised while fetching `AAPL` in the
watchlist loop is NOT shown as an inline warning for `AAPL` and aborts
the processing of the remaining symbols: the loop yields no item at all
and ends with the uncaught exception, while `GOOGL` alone would have
produced its metric display. -/
theorem watchlist_fetch_error_aborts :
    runWatchlist wfetchBad [("AAPL".data), ("GOOGL".data)] = ([], some PyErr.valueError)
    ∧ (runWatchlist wfetchBad [("GOOGL".data)]).1.map Prod.fst = [("GOOGL".data)]
    ∧ (runWatchlist wfetchBad [("GOOGL".data)]).2 = none := by
  refine ⟨?_, ?_, ?_⟩ <;> decide

/-- C6 amended: watchlist failures are isolated per symbol only for the
metric-computation step (the `try` block): such an error becomes an
inline warning for that symbol and the remaining symbols are still
processed; an error raised in fetch (or in normalization) is not caught
and aborts the processing of the remaining symbols. -/
theorem watchlist_metric_error_isolated (fetch : Str → Except PyErr DF) (s : Str)
    (rest : List Str) (df d2 : DF) (e : PyErr)
    (hf : fetch s = .ok df)
    (hne : pyEmptyDF df = false)
    (hp : process_data (if dfIsMulti df then flattenDF df else df) = .ok d2)
    (hm : watchlistMetrics (normalize_column_names d2) = .error e) :
    runWatchlist fetch (s :: rest) =
      ((s, WItem.warnItem e) :: (runWatchlist fetch rest).1, (runWatchlist fetch rest).2)
    ∧ (∀ (fetch2 : Str → Except PyErr DF) (e2 : PyErr), fetch2 s = .error e2 →
        runWatchlist fetch2 (s :: rest) = ([], some e2)) := by
  have hb : watchlistBody df = .ok (some (.warnItem e)) := by
    simp only [watchlistBody, hne, hp, hm]
    simp
  constructor
  · simp only [runWatchlist, hf, hb]
  · intro fetch2 e2 hf2
    simp only [runWatchlist, hf2]

/-- Witness for `watchlist_metric_error_isolated` at concrete inputs. -/
theorem watchlist_metric_error_isolated_witness :
    runWatchlist wfetchNoOpen [("AAPL".data), ("GOOGL".data)] =
      ((("AAPL".data), WItem.warnItem PyErr.keyError) ::
        (runWatchlist wfetchNoOpen [("GOOGL".data)]).1,
       (runWatchlist wfetchNoOpen [("GOOGL".data)]).2)
    ∧ (∀ (fetch2 : Str → Except PyErr DF) (e2 : PyErr), fetch2 ("AAPL".data) = .error e2 →
        runWatchlist fetch2 [("AAPL".data), ("GOOGL".data)] = ([], some e2)) :=
  watchlist_metric_error_isolated wfetchNoOpen ("AAPL".data) [("GOOGL".data)]
    dfNoOpen d2NoOpen PyErr.keyError (by rfl) (by decide) (by rfl) (by rfl)

/-- C8: when the pipeline succeeds and candlestick is requested, a table
with fewer than 5 rows is downgraded to a line rendering with the
downgrade warning, while a table with 5 or more rows gets a candlestick
rendering and no warning. -/
theorem main_chart_candlestick_policy (raw d1 d3 : DF) (m : Metrics)
    (hne : (pyEmptyDF raw || decide (nRows raw < 2)) = false)
    (h1 : process_data raw = .ok d1)
    (h2 : calculate_metrics (normalize_column_names d1) = .ok m)
    (h3 : add_technical_indicators (normalize_column_names d1) = .ok d3) :
    (nRows d3 < 5 → runMainChart raw ChartType.candlestick =
        ⟨[MWarn.notEnoughCandles], none, some ChartType.line, allStages⟩)
    ∧ (5 ≤ nRows d3 → runMainChart raw ChartType.candlestick =
        ⟨[], none, some ChartType.candlestick, allStages⟩) := by
  constructor
  · intro h5
    simp [runMainChart, hne, h1, h2, h3, show ¬5 ≤ nRows d3 from by omega]
  · intro h5
    simp [runMainChart, hne, h1, h2, h3, h5]

/-- Witness for `main_chart_candlestick_policy` on the three-row table
`raw3`: candlestick is downgraded to line with the warning. -/
theorem main_chart_candlestick_policy_witness :
    runMainChart raw3 ChartType.candlestick =
      ⟨[MWarn.notEnoughCandles], none, some ChartType.line, allStages⟩ :=
  (main_chart_candlestick_policy raw3 c8d1 c8d3 c8m (by decide) (by rfl) (by rfl)
    (by rfl)).1 (by decide)

/-- Converting a purely numeric column back recovers the values. -/
theorem cellsFloat_map_num (xs : List Rat) : cellsFloat (xs.map Cell.num) = .ok xs := by
  induction xs with
  | nil => rfl
  | cons x t ih => simp [cellsFloat, cellFloat, ih, Bind.bind, Except.bind]

/-- C2: on a canonical table with `N ≥ 1` rows of closes,
`calculate_metrics` returns `last_close = Close[N-1]`,
`change = Close[N-1] - Close[0]`, `pct_change = change / Close[0] * 100`
exactly, `high` the maximum of the `High` column, `low` the minimum of
the `Low` column, and `volume` the sum of the `Volume` column truncated
to an integer. -/
theorem calculate_metrics_spec (dts : List Cell) (opens highs lows closes vols : List Rat)
    (n : Nat) (hn : 1 ≤ n) (hc : closes.length = n) (hh : highs ≠ []) (hl : lows ≠ []) :
    ∃ m : Metrics, calculate_metrics (mkCanon dts opens highs lows closes vols) = .ok m
      ∧ m.lastClose = closes.getD (n - 1) 0
      ∧ m.change = closes.getD (n - 1) 0 - closes.getD 0 0
      ∧ m.pctChange = m.change / closes.getD 0 0 * 100
      ∧ m.high ∈ highs ∧ (∀ x ∈ highs, x ≤ m.high)
      ∧ m.low ∈ lows ∧ (∀ x ∈ lows, m.low ≤ x)
      ∧ m.volume = intTrunc vols.sum := by
  have hlt : n - 1 < closes.length := by omega
  have hlt0 : 0 < closes.length := by omega
  have hlast : closes.getLast? = some (closes.getD (n - 1) 0) := by
    rw [List.getLast?_eq_getElem?, hc, List.getElem?_eq_getElem (by omega),
      List.getD_eq_getElem closes 0 hlt]
  have hhead : closes.head? = some (closes.getD 0 0) := by
    rw [List.head?_eq_getElem?, List.getElem?_eq_getElem hlt0,
      List.getD_eq_getElem closes 0 hlt0]
  obtain ⟨hi, hmax⟩ : ∃ hi, highs.max? = some hi := by
    cases hx : highs.max? with
    | none => exact absurd (List.max?_eq_none_iff.mp hx) hh
    | some v => exact ⟨v, rfl⟩
  have hhiMem : hi ∈ highs := List.max?_mem (fun a b => max_choice a b) hmax
  have hhiUb : ∀ x ∈ highs, x ≤ hi :=
    (List.max?_le_iff (fun _ _ _ => max_le_iff) hmax).mp le_rfl
  obtain ⟨lo, hmin⟩ : ∃ lo, lows.min? = some lo := by
    cases hx : lows.min? with
    | none => exact absurd (List.min?_eq_none_iff.mp hx) hl
    | some v => exact ⟨v, rfl⟩
  have hloMem : lo ∈ lows := List.min?_mem (fun a b => min_choice a b) hmin
  have hloLb : ∀ x ∈ lows, lo ≤ x :=
    (List.le_min?_iff (fun _ _ _ => le_min_iff) hmin).mp le_rfl
  have e1 : getNumCol (mkCanon dts opens highs lows closes vols) sClose = .ok closes := by
    show cellsFloat (closes.map Cell.num) = .ok closes
    exact cellsFloat_map_num closes
  have e2 : getNumCol (mkCanon dts opens highs lows closes vols) sHigh = .ok highs := by
    show cellsFloat (highs.map Cell.num) = .ok highs
    exact cellsFloat_map_num highs
  have e3 : getNumCol (mkCanon dts opens highs lows closes vols) sLow = .ok lows := by
    show cellsFloat (lows.map Cell.num) = .ok lows
    exact cellsFloat_map_num lows
  have e4 : getNumCol (mkCanon dts opens highs lows closes vols) sVolume = .ok vols := by
    show cellsFloat (vols.map Cell.num) = .ok vols
    exact cellsFloat_map_num vols
  refine ⟨⟨closes.getD (n - 1) 0, closes.getD (n - 1) 0 - closes.getD 0 0,
    (closes.getD (n - 1) 0 - closes.getD 0 0) / closes.getD 0 0 * 100,
    hi, lo, intTrunc vols.sum⟩, ?_, rfl, rfl, rfl, hhiMem, hhiUb, hloMem, hloLb, rfl⟩
  simp only [calculate_metrics, e1, e2, e3, e4, ilocLast, ilocFirst, seriesMax, seriesMin,
    hlast, hhead, hmax, hmin, Bind.bind, Except.bind]

/-- Witness for `calculate_metrics_spec` at a concrete two-row table. -/
theorem calculate_metrics_spec_witness :
    ∃ m : Metrics, calculate_metrics (mkCanon [] [1, 2] [4, 5] [0, 1] [2, 3] [10, 10]) = .ok m
      ∧ m.lastClose = ([2, 3] : List Rat).getD (2 - 1) 0
      ∧ m.change = ([2, 3] : List Rat).getD (2 - 1) 0 - ([2, 3] : List Rat).getD 0 0
      ∧ m.pctChange = m.change / ([2, 3] : List Rat).getD 0 0 * 100
      ∧ m.high ∈ ([4, 5] : List Rat) ∧ (∀ x ∈ ([4, 5] : List Rat), x ≤ m.high)
      ∧ m.low ∈ ([0, 1] : List Rat) ∧ (∀ x ∈ ([0, 1] : List Rat), m.low ≤ x)
      ∧ m.volume = intTrunc ([10, 10] : List Rat).sum :=
  calculate_metrics_spec [] [1, 2] [4, 5] [0, 1] [2, 3] [10, 10] 2 (by decide)
    (by decide) (by decide) (by decide)

/-- Element `i` of the rolling mean, inside the table: `NaN` before a
full window, else the windowed mean. -/
theorem rollingMean_getElem (w : Nat) (xs : List Rat) (i : Nat) (hi : i < xs.length) :
    (rollingMean w xs)[i]? =
      some (if w ≤ i + 1 then
        Cell.num ((((xs.take (i + 1)).drop (i + 1 - w)).sum) / (w : Rat))
      else Cell.nan) := by
  unfold rollingMean
  rw [List.getElem?_map, List.getElem?_range hi]
  rfl

/-- C7: the `SMA_20` column that `add_technical_indicators` appends to
a table whose unique `Close` column holds the closes is the 20-window
rolling mean: undefined (`NaN`) at every index `i < 19`, and equal to
the arithmetic mean of `Close[i-19..i]` at every index `19 ≤ i`. -/
theorem add_technical_indicators_sma (df : DF) (closes : List Rat)
    (hsel : selectCols df sClose = [(PdLabel.flat sClose, closes.map Cell.num)])
    (hs : ∀ c ∈ df.cols, c.1 ≠ PdLabel.flat sSMA20)
    (he : ∀ c ∈ df.cols, c.1 ≠ PdLabel.flat sEMA20) :
    ∃ d3, add_technical_indicators df = .ok d3
      ∧ getCells d3 sSMA20 = some (rollingMean 20 closes)
      ∧ (∀ i, i < closes.length → i < 19 → (rollingMean 20 closes)[i]? = some Cell.nan)
      ∧ (∀ i, i < closes.length → 19 ≤ i →
          (rollingMean 20 closes)[i]? =
            some (Cell.num ((((closes.drop (i - 19)).take 20).sum) / (20 : Rat)))) := by
  have hs' : hasCol df.cols sSMA20 = false := by
    simp only [hasCol, List.any_eq_false, decide_eq_true_eq]
    exact hs
  have hd1 : setCol df sSMA20 (rollingMean 20 closes) =
      ⟨df.idx, df.cols ++ [(PdLabel.flat sSMA20, rollingMean 20 closes)]⟩ := by
    unfold setCol
    rw [if_neg (by simp [hs'])]
  have hne1 : PdLabel.flat sEMA20 ≠ PdLabel.flat sSMA20 := by decide
  have he' : hasCol (df.cols ++ [(PdLabel.flat sSMA20, rollingMean 20 closes)]) sEMA20
      = false := by
    simp only [hasCol, List.any_eq_false, decide_eq_true_eq, List.mem_append,
      List.mem_singleton]
    rintro c (hc | rfl)
    · exact he c hc
    · exact fun h => hne1.symm h
  have hd3 : add_technical_indicators df =
      .ok ⟨df.idx, df.cols ++ [(PdLabel.flat sSMA20, rollingMean 20 closes)]
            ++ [(PdLabel.flat sEMA20, ewmMean 20 closes)]⟩ := by
    simp only [add_technical_indicators, hsel, cellsFloat_map_num, Bind.bind, Except.bind]
    rw [hd1]
    unfold setCol
    rw [if_neg (by simp [he'])]
  have hf1 : List.filter (fun c => decide (c.1 = PdLabel.flat sSMA20))
      [(PdLabel.flat sSMA20, rollingMean 20 closes)]
      = [(PdLabel.flat sSMA20, rollingMean 20 closes)] := by
    simp [List.filter_cons]
  have hf2 : List.filter (fun c => decide (c.1 = PdLabel.flat sSMA20))
      [(PdLabel.flat sEMA20, ewmMean 20 closes)] = [] := by
    simp [List.filter_cons, hne1]
  have hfil : List.filter (fun c => decide (c.1 = PdLabel.flat sSMA20))
      (df.cols ++ [(PdLabel.flat sSMA20, rollingMean 20 closes)]
        ++ [(PdLabel.flat sEMA20, ewmMean 20 closes)])
      = [(PdLabel.flat sSMA20, rollingMean 20 closes)] := by
    rw [List.filter_append, List.filter_append]
    rw [List.filter_eq_nil_iff.mpr (fun c hc => by
      simp only [decide_eq_true_eq]
      exact hs c hc)]
    rw [hf1, hf2]
    simp
  refine ⟨_, hd3, ?_, ?_, ?_⟩
  · unfold getCells
    rw [show selectCols ⟨df.idx, df.cols ++ [(PdLabel.flat sSMA20, rollingMean 20 closes)]
          ++ [(PdLabel.flat sEMA20, ewmMean 20 closes)]⟩ sSMA20
        = [(PdLabel.flat sSMA20, rollingMean 20 closes)] from hfil]
  · intro i hlen hi
    rw [rollingMean_getElem 20 closes i hlen]
    rw [if_neg (by omega)]
  · intro i hlen hi
    rw [rollingMean_getElem 20 closes i hlen]
    rw [if_pos (by omega)]
    rw [List.drop_take]
    have e1 : i + 1 - 20 = i - 19 := by omega
    have e2 : i + 1 - (i + 1 - 20) = 20 := by omega
    rw [e2, e1]
    norm_cast

/-- Prefix matching cannot cross the joining space: a space-free needle
is a prefix of `a ++ ' ' :: b` exactly when it is a prefix of `a`. -/
theorem isPrefixOf_append_space (n : Str) :
    ∀ (a b : Str), (' ' : Char) ∉ n →
      n.isPrefixOf (a ++ (' ' :: b)) = n.isPrefixOf a := by
  induction n with
  | nil =>
    intro a b _
    simp [List.isPrefixOf]
  | cons c n' ih =>
    intro a b hn
    cases a with
    | nil =>
      have hc : (c == ' ') = false := by
        simp only [beq_eq_false_iff_ne]
        intro h
        exact hn (h ▸ List.mem_cons_self c n')
      show ((c == ' ') && n'.isPrefixOf b) = (c :: n').isPrefixOf []
      rw [hc]
      simp [List.isPrefixOf]
    | cons d a' =>
      have hn' : (' ' : Char) ∉ n' := fun h => hn (List.mem_cons_of_mem c h)
      show ((c == d) && n'.isPrefixOf (a' ++ (' ' :: b)))
          = ((c == d) && n'.isPrefixOf a')
      rw [ih a' b hn']

/-- Substring containment across the joining space: a nonempty
space-free needle occurs in `a ++ ' ' :: b` exactly when it occurs in
`a` or in `b`. -/
theorem inStr_append_space (n : Str) (hne : n ≠ []) (hn : (' ' : Char) ∉ n) :
    ∀ (a b : Str), inStr n (a ++ (' ' :: b)) = (inStr n a || inStr n b) := by
  intro a b
  induction a with
  | nil =>
    have h1 : n.isPrefixOf (' ' :: b) = false := by
      cases n with
      | nil => exact absurd rfl hne
      | cons c n' =>
        have hc : (c == ' ') = false := by
          simp only [beq_eq_false_iff_ne]
          intro h
          exact hn (h ▸ List.mem_cons_self c n')
        show ((c == ' ') && n'.isPrefixOf b) = false
        rw [hc]
        simp
    have h2 : inStr n [] = false := by
      cases n with
      | nil => exact absurd rfl hne
      | cons c n' => rfl
    show (n.isPrefixOf (' ' :: b) || inStr n b) = (inStr n [] || inStr n b)
    rw [h1, h2]
  | cons d a' ih =>
    show (n.isPrefixOf ((d :: a') ++ (' ' :: b)) || inStr n (a' ++ (' ' :: b)))
        = ((n.isPrefixOf (d :: a') || inStr n a') || inStr n b)
    rw [isPrefixOf_append_space n (d :: a') b hn, ih, Bool.or_assoc]

/-- Dropping whitespace stops immediately at a non-whitespace head. -/
theorem dropWhile_cons_nonws (c : Char) (t : Str) (hc : c.isWhitespace = false) :
    (c :: t).dropWhile Char.isWhitespace = c :: t := by
  simp [List.dropWhile, hc]

/-- Stripping is the identity on `field ++ ' ' :: symbol` when the field
and the symbol are nonempty and whitespace-free. -/
theorem pyStrip_join (f sym : Str) (hf : f ≠ []) (hfa : ∀ x ∈ f, x.isWhitespace = false)
    (hs : sym ≠ []) (hsa : ∀ x ∈ sym, x.isWhitespace = false) :
    pyStrip (f ++ (' ' :: sym)) = f ++ (' ' :: sym) := by
  cases f with
  | nil => exact absurd rfl hf
  | cons c f' =>
    have hc : c.isWhitespace = false := hfa c (List.mem_cons_self c f')
    unfold pyStrip
    rw [show ((c :: f') ++ (' ' :: sym)).dropWhile Char.isWhitespace
        = (c :: f') ++ (' ' :: sym) from by
      show (c :: (f' ++ (' ' :: sym))).dropWhile Char.isWhitespace
          = c :: (f' ++ (' ' :: sym))
      exact dropWhile_cons_nonws c _ hc]
    obtain ⟨d, t', hrev⟩ : ∃ d t', sym.reverse = d :: t' := by
      cases hx : sym.reverse with
      | nil => exact absurd (List.reverse_eq_nil_iff.mp hx) hs
      | cons d t' => exact ⟨d, t', rfl⟩
    have hd : d ∈ sym := by
      have hd0 : d ∈ sym.reverse := by
        rw [hrev]
        exact List.mem_cons_self d t'
      exact List.mem_reverse.mp hd0
    have hrev2 : ((c :: f') ++ (' ' :: sym)).reverse
        = d :: (t' ++ (' ' :: (c :: f').reverse)) := by
      rw [List.reverse_append]
      rw [show (' ' :: sym).reverse = sym.reverse ++ [' '] from by simp]
      rw [hrev]
      simp
    rw [hrev2]
    rw [dropWhile_cons_nonws d _ (hsa d hd)]
    rw [← hrev2, List.reverse_reverse]

/-- The five canonical field names are nonempty and whitespace-free. -/
theorem ohlcv_fields : ∀ f ∈ ohlcvNames, f ≠ [] ∧ ∀ x ∈ f, x.isWhitespace = false := by
  decide

/-- A string containing a space differs from any whitespace-free string. -/
theorem ne_of_ws_free (l l2 : Str) (h : (' ' : Char) ∈ l)
    (h2 : ∀ x ∈ l2, x.isWhitespace = false) : l ≠ l2 := by
  intro he
  exact absurd (h2 ' ' (he ▸ h)) (by decide)

/-- The joining space belongs to every flattened label. -/
theorem space_mem_join (f sym : Str) : (' ' : Char) ∈ f ++ (' ' :: sym) := by
  simp

/-- On a flattened `field ++ ' ' :: symbol` label whose symbol contains
no canonical name, the substring renaming recovers exactly the field. -/
theorem canonName_field (f sym : Str) (hf : f ∈ ohlcvNames)
    (hsub : ∀ nd ∈ ohlcvNames, inStr nd sym = false) :
    canonName (f ++ (' ' :: sym)) = f := by
  have hO := hsub sOpen (by decide)
  have hH := hsub sHigh (by decide)
  have hL := hsub sLow (by decide)
  have hC := hsub sClose (by decide)
  have hV := hsub sVolume (by decide)
  simp only [ohlcvNames, List.mem_cons, List.not_mem_nil, or_false] at hf
  rcases hf with rfl | rfl | rfl | rfl | rfl
  · have e1 : inStr sOpen (sOpen ++ (' ' :: sym)) = true := by
      rw [inStr_append_space sOpen (by decide) (by decide), hO]
      decide
    unfold canonName
    rw [e1]
    simp
  · have e1 : inStr sOpen (sHigh ++ (' ' :: sym)) = false := by
      rw [inStr_append_space sOpen (by decide) (by decide), hO]
      decide
    have e2 : inStr sHigh (sHigh ++ (' ' :: sym)) = true := by
      rw [inStr_append_space sHigh (by decide) (by decide), hH]
      decide
    unfold canonName
    rw [e1, e2]
    simp
  · have e1 : inStr sOpen (sLow ++ (' ' :: sym)) = false := by
      rw [inStr_append_space sOpen (by decide) (by decide), hO]
      decide
    have e2 : inStr sHigh (sLow ++ (' ' :: sym)) = false := by
      rw [inStr_append_space sHigh (by decide) (by decide), hH]
      decide
    have e3 : inStr sLow (sLow ++ (' ' :: sym)) = true := by
      rw [inStr_append_space sLow (by decide) (by decide), hL]
      decide
    unfold canonName
    rw [e1, e2, e3]
    simp
  · have e1 : inStr sOpen (sClose ++ (' ' :: sym)) = false := by
      rw [inStr_append_space sOpen (by decide) (by decide), hO]
      decide
    have e2 : inStr sHigh (sClose ++ (' ' :: sym)) = false := by
      rw [inStr_append_space sHigh (by decide) (by decide), hH]
      decide
    have e3 : inStr sLow (sClose ++ (' ' :: sym)) = false := by
      rw [inStr_append_space sLow (by decide) (by decide), hL]
      decide
    have e4 : inStr sClose (sClose ++ (' ' :: sym)) = true := by
      rw [inStr_append_space sClose (by decide) (by decide), hC]
      decide
    unfold canonName
    rw [e1, e2, e3, e4]
    simp
  · have e1 : inStr sOpen (sVolume ++ (' ' :: sym)) = false := by
      rw [inStr_append_space sOpen (by decide) (by decide), hO]
      decide
    have e2 : inStr sHigh (sVolume ++ (' ' :: sym)) = false := by
      rw [inStr_append_space sHigh (by decide) (by decide), hH]
      decide
    have e3 : inStr sLow (sVolume ++ (' ' :: sym)) = false := by
      rw [inStr_append_space sLow (by decide) (by decide), hL]
      decide
    have e4 : inStr sClose (sVolume ++ (' ' :: sym)) = false := by
      rw [inStr_append_space sClose (by decide) (by decide), hC]
      decide
    have e5 : inStr sVolume (sVolume ++ (' ' :: sym)) = true := by
      rw [inStr_append_space sVolume (by decide) (by decide), hV]
      decide
    unfold canonName
    rw [e1, e2, e3, e4, e5]
    simp

/-- C1 counterexample: on the raw two-level table `rawLow` — `(field,
symbol)` columns for the single symbol `Low` — the Normalizer does not
produce each canonical name exactly once: the substring rules rename
`'Close Low'` and `'Volume Low'` to `Low` (the `Low` rule is checked
before `Close` and `Volume`), so `Close` appears 0 times and `Low`
three times. -/
theorem normalizer_counts_fail_for_symbol_containing_canonical :
    ((normalizer rawLow).toOption.map fun d =>
      ((d.cols.map Prod.fst).count (PdLabel.flat sClose),
       (d.cols.map Prod.fst).count (PdLabel.flat sLow))) = some (0, 3)
    ∧ (0 : Nat) ≠ 1 := by
  exact ⟨by decide, by decide⟩

/-- Witness for `add_technical_indicators_sma` at `dfC7`. -/
theorem add_technical_indicators_sma_witness :
    ∃ d3, add_technical_indicators dfC7 = .ok d3
      ∧ getCells d3 sSMA20 = some (rollingMean 20 closesC7)
      ∧ (∀ i, i < closesC7.length → i < 19 → (rollingMean 20 closesC7)[i]? = some Cell.nan)
      ∧ (∀ i, i < closesC7.length → 19 ≤ i →
          (rollingMean 20 closesC7)[i]? =
            some (Cell.num ((((closesC7.drop (i - 19)).take 20).sum) / (20 : Rat)))) :=
  add_technical_indicators_sma dfC7 closesC7 (by rfl) (by decide) (by decide)

/-- Column membership test seen at the level of the label list. -/
theorem hasCol_eq_any_fst (cols : List (PdLabel × List Cell)) (s : Str) :
    hasCol cols s = (cols.map Prod.fst).any fun l => l = PdLabel.flat s := by
  induction cols with
  | nil => rfl
  | cons c t ih =>
    show (decide (c.1 = PdLabel.flat s) || t.any fun x => decide (x.1 = PdLabel.flat s))
        = (decide (c.1 = PdLabel.flat s) || (t.map Prod.fst).any fun l => decide (l = PdLabel.flat s))
    rw [show (t.any fun x => decide (x.1 = PdLabel.flat s)) = hasCol t s from rfl, ih]

/-- Renaming seen at the level of the label list. -/
theorem renameCols_map_fst (old new : Str) (cols : List (PdLabel × List Cell)) :
    (renameCols old new cols).map Prod.fst
      = (cols.map Prod.fst).map fun l =>
          if l = PdLabel.flat old then PdLabel.flat new else l := by
  unfold renameCols
  rw [List.map_map, List.map_map]
  rfl

/-- Flattening seen at the level of the label list. -/
theorem flattenDF_map_fst (df : DF) :
    (flattenDF df).cols.map Prod.fst = (df.cols.map Prod.fst).map flattenLabel := by
  show (df.cols.map fun c => (flattenLabel c.1, c.2)).map Prod.fst = _
  rw [List.map_map, List.map_map]
  rfl

/-- Name normalization seen at the level of the label list. -/
theorem normalize_map_fst (df : DF) :
    (normalize_column_names df).cols.map Prod.fst
      = (df.cols.map Prod.fst).map canonLabel := by
  show (df.cols.map fun c => (canonLabel c.1, c.2)).map Prod.fst = _
  rw [List.map_map, List.map_map]
  rfl

/-- The `Date`/`Datetime` rename chain on a promoted index column ahead
of flattened labels (each a flat string containing the joining space)
always relabels exactly the index column to `Datetime`, whatever the
whitespace-free index name was. -/
theorem promoteRename_map_fst (idxName : Str) (dtCells : List Cell)
    (rest : List (PdLabel × List Cell))
    (hiws : ∀ x ∈ idxName, x.isWhitespace = false)
    (hrest : ∀ l ∈ rest.map Prod.fst, ∃ s, l = PdLabel.flat s ∧ (' ' : Char) ∈ s) :
    (promoteRename ((PdLabel.flat idxName, dtCells) :: rest)).map Prod.fst
      = PdLabel.flat sDatetime :: rest.map Prod.fst := by
  have hrne : ∀ (s2 : Str), (∀ x ∈ s2, x.isWhitespace = false) →
      ∀ l ∈ rest.map Prod.fst, l ≠ PdLabel.flat s2 := by
    intro s2 hs2 l hl he
    obtain ⟨s, rfl, hsp⟩ := hrest l hl
    injection he with he2
    exact ne_of_ws_free s s2 hsp hs2 he2
  have hDatens : ∀ x ∈ sDate, x.isWhitespace = false := by decide
  have hDTns : ∀ x ∈ sDatetime, x.isWhitespace = false := by decide
  have hmapid : ∀ (s2 : Str), (∀ x ∈ s2, x.isWhitespace = false) →
      ((rest.map Prod.fst).map fun l =>
        if l = PdLabel.flat s2 then PdLabel.flat sDatetime else l) = rest.map Prod.fst := by
    intro s2 hs2
    have : ∀ l ∈ rest.map Prod.fst,
        (if l = PdLabel.flat s2 then PdLabel.flat sDatetime else l) = l := by
      intro l hl
      rw [if_neg (hrne s2 hs2 l hl)]
    rw [List.map_congr_left this]
    simp
  by_cases hid1 : idxName = sDate
  · have hD : hasCol ((PdLabel.flat idxName, dtCells) :: rest) sDate = true := by
      rw [hasCol_eq_any_fst]
      simp [hid1]
    unfold promoteRename
    rw [if_pos hD, renameCols_map_fst]
    simp only [List.map_cons]
    rw [if_pos (by rw [hid1]), hmapid sDate hDatens]
  · by_cases hid2 : idxName = sDatetime
    · have hD : hasCol ((PdLabel.flat idxName, dtCells) :: rest) sDate = false := by
        rw [hasCol_eq_any_fst]
        simp only [List.map_cons, List.any_cons, Bool.or_eq_false_iff]
        constructor
        · simp only [decide_eq_false_iff_not]
          intro h
          injection h with h2
          exact hid1 h2
        · rw [show ((rest.map Prod.fst).any fun l => decide (l = PdLabel.flat sDate))
              = false from ?_]
          rw [List.any_eq_false]
          intro l hl
          simp only [decide_eq_true_eq]
          exact hrne sDate hDatens l hl
      have hDT : hasCol ((PdLabel.flat idxName, dtCells) :: rest) sDatetime = true := by
        rw [hasCol_eq_any_fst]
        simp [hid2]
      unfold promoteRename
      rw [if_neg (by rw [hD]; exact fun h => Bool.noConfusion h), if_pos hDT]
      simp only [List.map_cons, hid2]
    · have hD : hasCol ((PdLabel.flat idxName, dtCells) :: rest) sDate = false := by
        rw [hasCol_eq_any_fst]
        simp only [List.map_cons, List.any_cons, Bool.or_eq_false_iff]
        refine ⟨?_, ?_⟩
        · simp only [decide_eq_false_iff_not]
          intro h
          injection h with h2
          exact hid1 h2
        · rw [List.any_eq_false]
          intro l hl
          simp only [decide_eq_true_eq]
          exact hrne sDate hDatens l hl
      have hDT : hasCol ((PdLabel.flat idxName, dtCells) :: rest) sDatetime = false := by
        rw [hasCol_eq_any_fst]
        simp only [List.map_cons, List.any_cons, Bool.or_eq_false_iff]
        refine ⟨?_, ?_⟩
        · simp only [decide_eq_false_iff_not]
          intro h
          injection h with h2
          exact hid2 h2
        · rw [List.any_eq_false]
          intro l hl
          simp only [decide_eq_true_eq]
          exact hrne sDatetime hDTns l hl
      unfold promoteRename
      rw [if_neg (by rw [hD]; exact fun h => Bool.noConfusion h),
        if_neg (by rw [hDT]; exact fun h => Bool.noConfusion h)]
      rw [renameCols_map_fst]
      simp only [List.map_cons]
      rw [hmapid idxName hiws]
      simp

/-- C1 amended: for every raw table whose columns are the five two-level
`(field, symbol)` pairs (fields a permutation of Open, High, Low, Close,
Volume) over a single ticker-shaped symbol — nonempty, whitespace-free,
and not containing any of the five canonical names as a substring — and
whose index name is whitespace-free, the Normalizer yields flat
single-string column labels in which `Datetime` and each of the five
canonical OHLCV names appear as a column label exactly once. -/
theorem normalizer_canonical_columns
    (fs : List Str) (sym idxName : Str) (times : List Int) (tz : Option Tz)
    (cols : List (PdLabel × List Cell))
    (hperm : fs.Perm ohlcvNames)
    (hlabels : cols.map Prod.fst = fs.map fun f => PdLabel.pair f sym)
    (hsne : sym ≠ []) (hsws : ∀ x ∈ sym, x.isWhitespace = false)
    (hsub : ∀ nd ∈ ohlcvNames, inStr nd sym = false)
    (hiws : ∀ x ∈ idxName, x.isWhitespace = false) :
    ∃ out : DF, normalizer ⟨.dtIdx idxName times tz, cols⟩ = .ok out
      ∧ out.cols.map Prod.fst = PdLabel.flat sDatetime :: fs.map PdLabel.flat
      ∧ (out.cols.map Prod.fst).count (PdLabel.flat sDatetime) = 1
      ∧ ∀ nd ∈ ohlcvNames, (out.cols.map Prod.fst).count (PdLabel.flat nd) = 1 := by
  have hfe : ∀ f ∈ fs, f ∈ ohlcvNames := fun f hf => hperm.mem_iff.mp hf
  have hfsne : fs ≠ [] := by
    intro h
    have h5 := hperm.length_eq
    rw [h] at h5
    simp [ohlcvNames] at h5
  have hmulti : dfIsMulti ⟨.dtIdx idxName times tz, cols⟩ = true := by
    cases hfs : fs with
    | nil => exact absurd hfs hfsne
    | cons f0 fs2 =>
      cases hcol : cols with
      | nil =>
        rw [hcol, hfs] at hlabels
        simp at hlabels
      | cons c0 ct =>
        rw [hcol, hfs] at hlabels
        simp only [List.map_cons, List.cons.injEq] at hlabels
        unfold dfIsMulti
        simp [List.any_cons, hlabels.1]
  have hflat : (flattenDF ⟨.dtIdx idxName times tz, cols⟩).cols.map Prod.fst
      = fs.map fun f => PdLabel.flat (f ++ (' ' :: sym)) := by
    rw [flattenDF_map_fst]
    rw [show (⟨PdIndex.dtIdx idxName times tz, cols⟩ : DF).cols = cols from rfl]
    rw [hlabels, List.map_map]
    apply List.map_congr_left
    intro f hf
    obtain ⟨hfne, hfws⟩ := ohlcv_fields f (hfe f hf)
    show PdLabel.flat (pyStrip (f ++ (' ' :: sym))) = PdLabel.flat (f ++ (' ' :: sym))
    rw [pyStrip_join f sym hfne hfws hsne hsws]
  have hpd : process_data ⟨.dtIdx idxName times tz, cols⟩
      = .ok ⟨.rangeIdx times.length,
          promoteRename ((PdLabel.flat idxName,
              times.map fun t => Cell.time ⟨t, some Tz.eastern⟩)
            :: (flattenDF ⟨.dtIdx idxName times tz, cols⟩).cols)⟩ := by
    unfold process_data
    rw [if_pos hmulti]
    rfl
  have hrest : ∀ l ∈ (flattenDF ⟨.dtIdx idxName times tz, cols⟩).cols.map Prod.fst,
      ∃ s, l = PdLabel.flat s ∧ (' ' : Char) ∈ s := by
    intro l hl
    rw [hflat] at hl
    simp only [List.mem_map] at hl
    obtain ⟨f, hf, rfl⟩ := hl
    exact ⟨f ++ (' ' :: sym), rfl, space_mem_join f sym⟩
  have hprom := promoteRename_map_fst idxName
    (times.map fun t => Cell.time ⟨t, some Tz.eastern⟩)
    (flattenDF ⟨.dtIdx idxName times tz, cols⟩).cols hiws hrest
  rw [hflat] at hprom
  have hnorm : normalizer ⟨.dtIdx idxName times tz, cols⟩
      = .ok (normalize_column_names ⟨.rangeIdx times.length,
          promoteRename ((PdLabel.flat idxName,
              times.map fun t => Cell.time ⟨t, some Tz.eastern⟩)
            :: (flattenDF ⟨.dtIdx idxName times tz, cols⟩).cols)⟩) := by
    unfold normalizer
    rw [hpd]
    rfl
  have houtfst : (normalize_column_names ⟨.rangeIdx times.length,
      promoteRename ((PdLabel.flat idxName,
          times.map fun t => Cell.time ⟨t, some Tz.eastern⟩)
        :: (flattenDF ⟨.dtIdx idxName times tz, cols⟩).cols)⟩).cols.map Prod.fst
      = PdLabel.flat sDatetime :: fs.map PdLabel.flat := by
    rw [normalize_map_fst]
    rw [show (⟨PdIndex.rangeIdx times.length,
        promoteRename ((PdLabel.flat idxName,
            times.map fun t => Cell.time ⟨t, some Tz.eastern⟩)
          :: (flattenDF ⟨.dtIdx idxName times tz, cols⟩).cols)⟩ : DF).cols
        = promoteRename ((PdLabel.flat idxName,
            times.map fun t => Cell.time ⟨t, some Tz.eastern⟩)
          :: (flattenDF ⟨.dtIdx idxName times tz, cols⟩).cols) from rfl]
    rw [hprom, List.map_cons]
    rw [show canonLabel (PdLabel.flat sDatetime) = PdLabel.flat sDatetime from by decide]
    rw [List.map_map]
    have htail : ∀ f ∈ fs,
        (canonLabel ∘ fun f => PdLabel.flat (f ++ (' ' :: sym))) f = PdLabel.flat f := by
      intro f hf
      show PdLabel.flat (canonName (f ++ (' ' :: sym))) = PdLabel.flat f
      rw [canonName_field f sym (hfe f hf) hsub]
    rw [List.map_congr_left htail]
  refine ⟨_, hnorm, houtfst, ?_, ?_⟩
  · rw [houtfst, List.count_cons_self,
      List.count_map_of_injective fs PdLabel.flat
        (fun a b h => by cases h; rfl) sDatetime,
      hperm.count_eq sDatetime]
    decide
  · intro nd hnd
    have hne : (PdLabel.flat sDatetime == PdLabel.flat nd) = false := by
      rw [beq_eq_false_iff_ne]
      intro hh
      injection hh with h3
      have : ∀ x ∈ ohlcvNames, ¬sDatetime = x := by decide
      exact this nd hnd h3
    rw [houtfst, List.count_cons, hne,
      List.count_map_of_injective fs PdLabel.flat
        (fun a b h => by cases h; rfl) nd,
      hperm.count_eq nd]
    simp only [ohlcvNames, List.mem_cons, List.not_mem_nil, or_false] at hnd
    rcases hnd with rfl | rfl | rfl | rfl | rfl <;> decide

/-- Witness for `normalizer_canonical_columns` at the concrete `rawC5`
columns (symbol `XYZ`, index name `Datetime`). -/
theorem normalizer_canonical_columns_witness :
    ∃ out : DF,
      normalizer ⟨.dtIdx ("Datetime".data) [0, 1, 2, 3, 4, 5, 6, 7, 8, 9] none, rawC5.cols⟩
        = .ok out
      ∧ out.cols.map Prod.fst = PdLabel.flat sDatetime
          :: ([sClose, sOpen, sHigh, sLow, sVolume].map PdLabel.flat)
      ∧ (out.cols.map Prod.fst).count (PdLabel.flat sDatetime) = 1
      ∧ ∀ nd ∈ ohlcvNames, (out.cols.map Prod.fst).count (PdLabel.flat nd) = 1 :=
  normalizer_canonical_columns [sClose, sOpen, sHigh, sLow, sVolume] ("XYZ".data)
    ("Datetime".data) [0, 1, 2, 3, 4, 5, 6, 7, 8, 9] none rawC5.cols
    (by decide) (by decide) (by decide) (by decide) (by decide) (by decide)
